import Mathlib

/-!
Verification of the virtual-memory subsystem of the adeline-os kernel:
`src/pagetable/sv48.rs`, `src/pagetable/memory_map.rs` and `src/hwinfo.rs`.

Machine integers (`u64`) are modelled as `Nat`.  On every code path embedded
here the involved values stay below `2 ^ 64`, and the operations used
(`&&&`, `|||`, `^^^`, `<<<`, `>>>`, comparisons) agree with the wrapping
`u64` semantics on that range, so no explicit `% 2 ^ 64` is needed.
-/

namespace Adeline

/-- The `BITS_n` constants of `crate::basic_consts` (the module file is not
under `src/`, but its meaning is pinned inside `src/`): a mask of the `n` low
bits, as witnessed by the parallel literals in `sv48.rs` (`0b11` next to
`BITS_2` for the 2-bit `rsw` field, `0b111111111` for the 9-bit ppn fields,
`BITS_44 <<< 10` for the 44-bit entry ppn mask, `0b1111111` next to `BITS_7`
for the 7 reserved bits). -/
def BITS (n : Nat) : Nat := 2 ^ n - 1

/-- Rust `!x` on `u64`: complement inside 64 bits. -/
def not64 (x : Nat) : Nat := BITS 64 ^^^ x

namespace EntryFlags

/-- `EntryFlags::V`, `sv48.rs` line 721. -/
def V : Nat := 1 <<< 0
/-- `EntryFlags::R`. -/
def R : Nat := 1 <<< 1
/-- `EntryFlags::W`. -/
def W : Nat := 1 <<< 2
/-- `EntryFlags::X`. -/
def X : Nat := 1 <<< 3
/-- `EntryFlags::U`. -/
def U : Nat := 1 <<< 4
/-- `EntryFlags::G`. -/
def G : Nat := 1 <<< 5
/-- `EntryFlags::A`. -/
def A : Nat := 1 <<< 6
/-- `EntryFlags::D`. -/
def D : Nat := 1 <<< 7
/-- `EntryFlags::RSW`, the two software bits. -/
def RSW : Nat := BITS 2 <<< 8
/-- `EntryFlags::PPN_0`. -/
def PPN_0 : Nat := BITS 9 <<< 10
/-- `EntryFlags::PPN_1`. -/
def PPN_1 : Nat := BITS 9 <<< 19
/-- `EntryFlags::PPN_2`. -/
def PPN_2 : Nat := BITS 26 <<< 28
/-- `EntryFlags::PBMT`. -/
def PBMT : Nat := BITS 2 <<< 61
/-- `EntryFlags::N`. -/
def N : Nat := 1 <<< 63

/-- `EntryFlags::FLAGS`, `sv48.rs` line 751, verbatim: note the source lists
`A` twice and does not include `RSW`. -/
def FLAGS : Nat :=
  V ||| R ||| W ||| X ||| U ||| G ||| A ||| A ||| D ||| PBMT ||| N

/-- `EntryFlags::PPN`, `sv48.rs` line 754. -/
def PPN : Nat := PPN_0 ||| PPN_1 ||| PPN_2

end EntryFlags

/-- `Permissions` (`sv48.rs` lines 345-350): the decoded r/w/x triple. -/
structure Permissions where
  read : Bool
  write : Bool
  execute : Bool
deriving DecidableEq, Repr

/-- `Permissions::try_new` (`sv48.rs` lines 355-365). -/
def Permissions.try_new (read write execute : Bool) : Option Permissions :=
  if write && !read then none
  else some { read := read, write := write, execute := execute }

/-- `Permissions::is_none` (`sv48.rs` lines 367-369). -/
def Permissions.is_none (p : Permissions) : Bool :=
  !(p.read || p.write || p.execute)

namespace EntryFlags

/-- `EntryFlags::valid` (`sv48.rs` lines 802-804): tests the `V` bit. -/
def valid (f : Nat) : Bool := (f &&& V) != 0

/-- `EntryFlags::permissions` (`sv48.rs` lines 810-819), verbatim: the source
builds each field from `(self & BIT).is_empty()`, i.e. the field is `true`
when the bit is CLEAR. -/
def permissions (f : Nat) : Permissions :=
  { read := (f &&& R) == 0, write := (f &&& W) == 0, execute := (f &&& X) == 0 }

/-- `EntryFlags::is_leaf` (`sv48.rs` lines 806-808). -/
def is_leaf (f : Nat) : Bool := (permissions f).is_none

end EntryFlags

/-- `Entry::new` (`sv48.rs` lines 680-683): ORs the raw address with the flag
bits. -/
def Entry.new (address flags : Nat) : Nat := address ||| flags

/-- `Entry::address` (`sv48.rs` lines 686-688). -/
def Entry.address (e : Nat) : Nat := e &&& EntryFlags.PPN

/-- `Entry::flags` (`sv48.rs` lines 691-695). -/
def Entry.flags (e : Nat) : Nat := e &&& EntryFlags.FLAGS

/-- `Entry::is_empty` (`sv48.rs` lines 698-700). -/
def Entry.is_empty (e : Nat) : Bool := e == 0

/-- The page-number field of a `PhysicalAddress` (`sv48.rs` line 307:
`(self.0 & BITS_55 & !BITS_12) >> 12`). -/
def PhysicalAddress.ppn (p : Nat) : Nat := (p &&& BITS 55 &&& not64 (BITS 12)) >>> 12

/-- The page-number bits of a physical address left in place (not shifted
down): `p` restricted to the field read by `PhysicalAddress::ppn`. -/
def PhysicalAddress.pageNumberBits (p : Nat) : Nat := p &&& BITS 55 &&& not64 (BITS 12)

namespace Permission

/-- `Permission::NONE` (`memory_map.rs` line 145). -/
def NONE : Nat := 0
/-- `Permission::R`. -/
def R : Nat := 1
/-- `Permission::W`. -/
def W : Nat := 2
/-- `Permission::X`. -/
def X : Nat := 4
/-- `Permission::RW`. -/
def RW : Nat := R ||| W
/-- `Permission::RX`. -/
def RX : Nat := R ||| X
/-- `Permission::RWX`. -/
def RWX : Nat := R ||| W ||| X

/-- Modelled from the spec: `Permission::readable` is called by `sv48.rs`
(lines 629, 885) but not defined anywhere under `src/`.  The spec describes
`Permission` as the bitset {R, W, X} whose R bit means readable memory, so
the accessor tests that bit. -/
def readable (p : Nat) : Bool := (p &&& R) != 0

/-- Modelled from the spec: see `Permission.readable`. -/
def writable (p : Nat) : Bool := (p &&& W) != 0

/-- Modelled from the spec: see `Permission.readable`. -/
def executable (p : Nat) : Bool := (p &&& X) != 0

end Permission

/-- The `bitflags` crate `set` operation used by the builder: insert the flag
when `preset`, remove it otherwise. -/
def flagSet (bits flag : Nat) (preset : Bool) : Nat :=
  if preset then bits ||| flag else bits &&& not64 flag

/-- `EntryFlags::builder()` starts from the empty flag set. -/
def EntryFlags.builder : Nat := 0

namespace EntryFlagsBuilder

/-- `EntryFlagsBuilder::valid` (`sv48.rs` lines 867-870). -/
def valid (b : Nat) (preset : Bool) : Nat := flagSet b EntryFlags.V preset

/-- `EntryFlagsBuilder::readable`. -/
def readable (b : Nat) (preset : Bool) : Nat := flagSet b EntryFlags.R preset

/-- `EntryFlagsBuilder::writable`. -/
def writable (b : Nat) (preset : Bool) : Nat := flagSet b EntryFlags.W preset

/-- `EntryFlagsBuilder::executable`. -/
def executable (b : Nat) (preset : Bool) : Nat := flagSet b EntryFlags.X preset

/-- `EntryFlagsBuilder::with_permissions` (`sv48.rs` lines 884-888). -/
def with_permissions (b perm : Nat) : Nat :=
  executable
    (writable (readable b (Permission.readable perm)) (Permission.writable perm))
    (Permission.executable perm)

/-- `EntryFlagsBuilder::build`. -/
def build (b : Nat) : Nat := b

end EntryFlagsBuilder

/-! Bit-level helper lemmas. -/

theorem testBit_eq_false_of_mod {p : Nat} (k i : Nat) (h : p % 2 ^ k = 0)
    (hik : i < k) : p.testBit i = false := by
  have hbit := Nat.testBit_mod_two_pow p k i
  rw [h, Nat.zero_testBit] at hbit
  simpa [hik] using hbit.symm

theorem testBit_eq_false_of_lt {p : Nat} (k i : Nat) (h : p < 2 ^ k)
    (hik : k ≤ i) : p.testBit i = false :=
  Nat.testBit_lt_two_pow
    (lt_of_lt_of_le h (Nat.pow_le_pow_right (by norm_num) hik))

theorem and_eq_zero_of_mod_of_lt {p m : Nat} (k : Nat) (hp : p % 2 ^ k = 0)
    (hm : m < 2 ^ k) : p &&& m = 0 := by
  apply Nat.eq_of_testBit_eq
  intro i
  rw [Nat.testBit_and, Nat.zero_testBit]
  by_cases hik : i < k
  · rw [testBit_eq_false_of_mod k i hp hik, Bool.false_and]
  · rw [testBit_eq_false_of_lt k i hm (le_of_not_lt hik), Bool.and_false]

theorem shift_mask_testBit (n k i : Nat) :
    (((2 : Nat) ^ n - 1) <<< k).testBit i = (decide (k ≤ i) && decide (i < k + n)) := by
  rw [Nat.testBit_shiftLeft, Nat.testBit_two_pow_sub_one]
  rcases le_or_lt k i with h | h
  · simp only [ge_iff_le, h, decide_True, Bool.true_and]
    exact decide_eq_decide.mpr (by omega)
  · simp [Nat.not_le.mpr h, show ¬ i ≥ k from Nat.not_le.mpr h]

theorem or_and_distrib (a b c : Nat) :
    (a ||| b) &&& c = (a &&& c) ||| (b &&& c) := by
  apply Nat.eq_of_testBit_eq
  intro i
  rw [Nat.testBit_and, Nat.testBit_or, Nat.testBit_or, Nat.testBit_and,
    Nat.testBit_and]
  cases a.testBit i <;> cases b.testBit i <;> cases c.testBit i <;> rfl

theorem and_or_distrib (a b c : Nat) :
    (a &&& b) ||| (a &&& c) = a &&& (b ||| c) := by
  apply Nat.eq_of_testBit_eq
  intro i
  rw [Nat.testBit_or, Nat.testBit_and, Nat.testBit_and, Nat.testBit_and,
    Nat.testBit_or]
  cases a.testBit i <;> cases b.testBit i <;> cases c.testBit i <;> rfl

theorem ppn_testBit (i : Nat) :
    EntryFlags.PPN.testBit i = (decide (10 ≤ i) && decide (i < 54)) := by
  have h : EntryFlags.PPN = ((2 : Nat) ^ 44 - 1) <<< 10 := by decide
  rw [h, shift_mask_testBit]

theorem pnb_testBit (i : Nat) :
    (BITS 55 &&& not64 (BITS 12)).testBit i = (decide (12 ≤ i) && decide (i < 55)) := by
  have h : BITS 55 &&& not64 (BITS 12) = ((2 : Nat) ^ 43 - 1) <<< 12 := by decide
  rw [h, shift_mask_testBit]

theorem and_ppn_self {p : Nat} (h12 : p % 2 ^ 12 = 0) (h54 : p < 2 ^ 54) :
    p &&& EntryFlags.PPN = p := by
  apply Nat.eq_of_testBit_eq
  intro i
  rw [Nat.testBit_and, ppn_testBit]
  by_cases hlo : i < 12
  · rw [testBit_eq_false_of_mod 12 i h12 hlo, Bool.false_and]
  · by_cases hhi : i < 54
    · simp [show 10 ≤ i by omega, hhi]
    · rw [testBit_eq_false_of_lt 54 i h54 (le_of_not_lt hhi), Bool.false_and]

theorem pageNumberBits_eq_self {p : Nat} (h12 : p % 2 ^ 12 = 0)
    (h54 : p < 2 ^ 54) : PhysicalAddress.pageNumberBits p = p := by
  unfold PhysicalAddress.pageNumberBits
  rw [Nat.and_assoc]
  apply Nat.eq_of_testBit_eq
  intro i
  rw [Nat.testBit_and, pnb_testBit]
  by_cases hlo : i < 12
  · rw [testBit_eq_false_of_mod 12 i h12 hlo, Bool.false_and]
  · by_cases hhi : i < 54
    · simp [show 12 ≤ i by omega, show i < 55 by omega]
    · rw [testBit_eq_false_of_lt 54 i h54 (le_of_not_lt hhi), Bool.false_and]

/-- C6: the claim says `EntryFlags::is_leaf` is true exactly when at least one
of the R/W/X bits is set.  The code decodes each permission with
`(self & BIT).is_empty()` (true when the bit is CLEAR), so
`is_leaf = permissions().is_none()` is true exactly when ALL THREE of R, W, X
are set.  At the failing input (only R set) the code returns `false` where the
claim requires `true`; the last conjunct is the general characterisation of
what the code computes. -/
theorem c6_is_leaf_eval :
    EntryFlags.is_leaf EntryFlags.R = false
    ∧ EntryFlags.is_leaf (EntryFlags.R ||| EntryFlags.W ||| EntryFlags.X) = true
    ∧ ∀ f : Nat, EntryFlags.is_leaf f = true
        ↔ (f &&& EntryFlags.R ≠ 0 ∧ f &&& EntryFlags.W ≠ 0 ∧ f &&& EntryFlags.X ≠ 0) := by
  refine ⟨by decide, by decide, ?_⟩
  intro f
  simp [EntryFlags.is_leaf, EntryFlags.permissions, Permissions.is_none, and_assoc]

/-- C7 counterexample: the claim quantifies over every `PhysicalAddress` and
every `EntryFlags`.  At `p = 0x400` (bit 10 set, inside the page offset of a
physical address but inside the entry ppn mask) `address()` returns `0x400`
while `p`'s page-number bits are `0`; and at `p = 0x1` the constructed entry
stores `p`'s offset bit. -/
theorem c7_counterexample :
    Entry.address (Entry.new 0x400 0) ≠ PhysicalAddress.pageNumberBits 0x400
    ∧ Entry.new 0x1 0 &&& BITS 12 ≠ 0 := by
  refine ⟨?_, by decide⟩
  intro h
  exact absurd h (by decide)

/-- C7 amended: for a 4096-aligned physical address below `2 ^ 54` and flags
with no bits inside the entry ppn field, `Entry::new(p, f).address()` yields
exactly `p`'s page-number bits, and the offset-range bits of the entry come
only from the flags, never from `p`. -/
theorem c7_roundtrip (p f : Nat) (h12 : p % 2 ^ 12 = 0) (h54 : p < 2 ^ 54)
    (hf : f &&& EntryFlags.PPN = 0) :
    Entry.address (Entry.new p f) = PhysicalAddress.pageNumberBits p
    ∧ Entry.new p f &&& BITS 12 = f &&& BITS 12 := by
  constructor
  · unfold Entry.address Entry.new
    rw [or_and_distrib, hf, Nat.or_zero, and_ppn_self h12 h54,
      pageNumberBits_eq_self h12 h54]
  · unfold Entry.new
    rw [or_and_distrib, and_eq_zero_of_mod_of_lt 12 h12 (by decide), Nat.zero_or]

theorem c7_roundtrip_witness :
    ((0x2000 : Nat) % 2 ^ 12 = 0 ∧ (0x2000 : Nat) < 2 ^ 54
      ∧ EntryFlags.V &&& EntryFlags.PPN = 0)
    ∧ Entry.address (Entry.new 0x2000 EntryFlags.V)
        = PhysicalAddress.pageNumberBits 0x2000
    ∧ Entry.new 0x2000 EntryFlags.V &&& BITS 12 = EntryFlags.V &&& BITS 12 :=
  ⟨⟨by decide, by decide, by decide⟩,
    c7_roundtrip 0x2000 EntryFlags.V (by decide) (by decide) (by decide)⟩

/-- C8 counterexample: bit 8 (the low `RSW` bit) is in neither the ppn mask
nor the `FLAGS` mask, so the pair `(address(), flags())` of the entry `0x100`
recovers none of its bits: the two masks' union is not the full word. -/
theorem c8_counterexample :
    Entry.address 0x100 ||| Entry.flags 0x100 = 0 ∧ (0x100 : Nat) ≠ 0 := by
  refine ⟨by decide, ?_⟩
  intro h
  exact absurd h (by decide)

/-- C8 amended: the masks of `Entry::address` and `Entry::flags` are disjoint,
but their union is not the full 64-bit word: it misses the `RSW` bits 8-9 and
the reserved bits 54-60 (`FLAGS` lists `A` twice instead of naming `RSW`).
The pair `(address(), flags())` recovers exactly the entries supported on the
union. -/
theorem c8_masks :
    EntryFlags.PPN &&& EntryFlags.FLAGS = 0
    ∧ EntryFlags.PPN ||| EntryFlags.FLAGS = 0xE03FFFFFFFFFFCFF
    ∧ ∀ e : Nat, e &&& (EntryFlags.PPN ||| EntryFlags.FLAGS) = e →
        Entry.address e ||| Entry.flags e = e := by
  refine ⟨by decide, by decide, ?_⟩
  intro e he
  unfold Entry.address Entry.flags
  rw [and_or_distrib, he]

theorem c8_masks_witness :
    ((0x1003 : Nat) &&& (EntryFlags.PPN ||| EntryFlags.FLAGS) = 0x1003)
    ∧ Entry.address 0x1003 ||| Entry.flags 0x1003 = 0x1003 :=
  ⟨by decide, c8_masks.2.2 0x1003 (by decide)⟩

/-- C9 counterexample: the `EntryFlags` builder path that consumes a
`Permission` (`builder().valid(true).with_permissions(perm).build()`, the
exact construction of `Level0::map_addr`) applied to `Permission::W` produces
flags with W set and R clear — the architecturally reserved combination the
claim says is never produced. -/
theorem c9_counterexample :
    EntryFlagsBuilder.build
        (EntryFlagsBuilder.with_permissions
          (EntryFlagsBuilder.valid EntryFlags.builder true) Permission.W)
        &&& EntryFlags.W ≠ 0
    ∧ EntryFlagsBuilder.build
        (EntryFlagsBuilder.with_permissions
          (EntryFlagsBuilder.valid EntryFlags.builder true) Permission.W)
        &&& EntryFlags.R = 0 := by
  refine ⟨?_, by decide⟩
  intro h
  exact absurd h (by decide)

/-- C9 amended: `Permissions::try_new(read, write, execute)` returns `None`
exactly when `write && !read` holds, but the `EntryFlags` builder path
consuming a `Permission` copies the R/W/X bits of the `Permission` unchanged,
with no rejection of write-without-read. -/
theorem c9_permission_check :
    (∀ r w x : Bool, Permissions.try_new r w x = none ↔ (w = true ∧ r = false))
    ∧ ∀ perm : Nat,
        ((EntryFlagsBuilder.build
            (EntryFlagsBuilder.with_permissions
              (EntryFlagsBuilder.valid EntryFlags.builder true) perm)
          &&& EntryFlags.R != 0) = Permission.readable perm)
        ∧ ((EntryFlagsBuilder.build
            (EntryFlagsBuilder.with_permissions
              (EntryFlagsBuilder.valid EntryFlags.builder true) perm)
          &&& EntryFlags.W != 0) = Permission.writable perm)
        ∧ ((EntryFlagsBuilder.build
            (EntryFlagsBuilder.with_permissions
              (EntryFlagsBuilder.valid EntryFlags.builder true) perm)
          &&& EntryFlags.X != 0) = Permission.executable perm) := by
  refine ⟨by decide, ?_⟩
  intro perm
  cases hr : Permission.readable perm <;> cases hw : Permission.writable perm <;>
    cases hx : Permission.executable perm <;>
      simp only [EntryFlagsBuilder.build, EntryFlagsBuilder.with_permissions,
        EntryFlagsBuilder.valid, EntryFlagsBuilder.readable,
        EntryFlagsBuilder.writable, EntryFlagsBuilder.executable, hr, hw, hx] <;>
      refine ⟨by decide, by decide, by decide⟩

/-- A `PageTable<L>` node viewed as its 512 `Entry` words (`sv48.rs` lines
451-456); the level parameter plays no role in `is_empty`/`try_free`. -/
structure PageTable where
  entries : List Nat
deriving DecidableEq, Repr

/-- `PageTable::is_empty` (`sv48.rs` lines 470-472): every entry has its
valid flag clear. -/
def PageTable.is_empty (t : PageTable) : Bool :=
  t.entries.all fun e => !EntryFlags.valid (Entry.flags e)

/-- `PageTable::try_free` (`sv48.rs` lines 475-486): release the table when
`is_empty`, otherwise hand the table back unchanged. -/
def PageTable.try_free (t : PageTable) : Except PageTable Unit :=
  if t.is_empty then Except.ok () else Except.error t

/-- C10: `try_free` returns `Ok` exactly when every one of the 512 entries
has its valid flag clear; otherwise it returns `Err` carrying the table back
with all entries unchanged. -/
theorem c10_try_free (t : PageTable) (h : t.entries.length = 512) :
    (PageTable.try_free t = Except.ok ()
      ↔ ∀ e ∈ t.entries, EntryFlags.valid (Entry.flags e) = false)
    ∧ ∀ u : PageTable, PageTable.try_free t = Except.error u → u = t := by
  have hall : PageTable.is_empty t = true
      ↔ ∀ e ∈ t.entries, EntryFlags.valid (Entry.flags e) = false := by
    simp [PageTable.is_empty, List.all_eq_true]
  constructor
  · by_cases hb : PageTable.is_empty t = true
    · refine iff_of_true ?_ (hall.mp hb)
      unfold PageTable.try_free
      rw [if_pos hb]
    · refine iff_of_false ?_ fun hc => hb (hall.mpr hc)
      unfold PageTable.try_free
      rw [if_neg hb]
      simp
  · intro u hu
    unfold PageTable.try_free at hu
    by_cases hb : PageTable.is_empty t = true
    · rw [if_pos hb] at hu
      simp at hu
    · rw [if_neg hb] at hu
      exact (Except.error.inj hu).symm

theorem c10_try_free_witness :
    (PageTable.mk (List.replicate 512 0)).entries.length = 512
    ∧ ((PageTable.try_free (PageTable.mk (List.replicate 512 0)) = Except.ok ()
        ↔ ∀ e ∈ (PageTable.mk (List.replicate 512 0)).entries,
            EntryFlags.valid (Entry.flags e) = false)
      ∧ ∀ u : PageTable,
          PageTable.try_free (PageTable.mk (List.replicate 512 0)) = Except.error u
          → u = PageTable.mk (List.replicate 512 0)) :=
  ⟨List.length_replicate 512 0,
    c10_try_free (PageTable.mk (List.replicate 512 0)) (List.length_replicate 512 0)⟩

/-- `Region` (`memory_map.rs` lines 8-16).  The Rust field `end` is a Lean
keyword and is spelled `end_` here. -/
structure Region where
  address : Nat
  maps_to : Option Nat
  end_ : Nat
  desc : String
  perms : Nat
deriving DecidableEq, Repr

/-- `Region::start`. -/
def Region.start (r : Region) : Nat := r.address

/-- `Region::overlaps` (`memory_map.rs` lines 31-34). -/
def Region.overlaps (a b : Region) : Bool :=
  decide (a.address < b.end_) && decide (a.end_ > b.address)

/-- The sort key of `MemoryRegions::add`: order by start address. -/
def regionLE (a b : Region) : Prop := a.address ≤ b.address

instance : DecidableRel regionLE :=
  fun a b => inferInstanceAs (Decidable (a.address ≤ b.address))

instance : IsTotal Region regionLE :=
  ⟨fun a b => Nat.le_total a.address b.address⟩

instance : IsTrans Region regionLE :=
  ⟨fun _ _ _ h1 h2 => Nat.le_trans h1 h2⟩

/-- `MemoryRegions::add` (`memory_map.rs` lines 82-95) acting on the stored
region list: reject empty ranges, reject any interval overlap, otherwise push
and re-sort by start address (Rust's stable `sort_by_key` is modelled by the
stable `insertionSort`).  The source `assert!(start <= end)` is carried as a
hypothesis of the theorems. -/
def MemoryRegions.add (regions : List Region) (start stop : Nat)
    (desc : String) (perms : Nat) : List Region × Bool :=
  if start = stop then (regions, false)
  else if regions.any fun r =>
      r.overlaps { address := start, maps_to := none, end_ := stop, desc := desc, perms := perms }
    then (regions, false)
    else
      (List.insertionSort regionLE
        (regions ++ [{ address := start, maps_to := none, end_ := stop, desc := desc, perms := perms }]),
      true)

/-- One call of `MemoryRegions::add`. -/
structure AddOp where
  start : Nat
  stop : Nat
  desc : String
  perms : Nat
deriving DecidableEq, Repr

/-- A sequence of `add` calls against a fresh `MemoryRegions::new()`. -/
def runAdds (ops : List AddOp) : List Region :=
  ops.foldl (fun l op => (MemoryRegions.add l op.start op.stop op.desc op.perms).1) []

theorem overlaps_symm_false {a b : Region} (h : Region.overlaps a b = false) :
    Region.overlaps b a = false := by
  simp [Region.overlaps] at h ⊢
  omega

theorem add_preserves_inv (l : List Region) (start stop : Nat) (desc : String)
    (perms : Nat)
    (hs : List.Sorted regionLE l)
    (hp : List.Pairwise (fun a b => Region.overlaps a b = false) l) :
    List.Sorted regionLE (MemoryRegions.add l start stop desc perms).1
    ∧ List.Pairwise (fun a b => Region.overlaps a b = false)
        (MemoryRegions.add l start stop desc perms).1 := by
  unfold MemoryRegions.add
  by_cases h1 : start = stop
  · rw [if_pos h1]
    exact ⟨hs, hp⟩
  · rw [if_neg h1]
    by_cases h2 : (l.any fun r =>
        r.overlaps { address := start, maps_to := none, end_ := stop, desc := desc, perms := perms }) = true
    · rw [if_pos h2]
      exact ⟨hs, hp⟩
    · rw [if_neg h2]
      refine ⟨List.sorted_insertionSort regionLE _, ?_⟩
      have hperm := List.perm_insertionSort regionLE
        (l ++ [{ address := start, maps_to := none, end_ := stop, desc := desc, perms := perms }])
      refine (List.Perm.pairwise_iff (fun hxy => overlaps_symm_false hxy) hperm).mpr ?_
      rw [List.pairwise_append]
      refine ⟨hp, List.pairwise_singleton _ _, ?_⟩
      intro a ha b hb
      rw [List.mem_singleton] at hb
      subst hb
      have := List.any_eq_false.mp (Bool.not_eq_true _ ▸ h2) a ha
      simpa using this

/-- C3: after every sequence of `add` calls (each with `start ≤ end`) the
stored region list is sorted by start address and pairwise non-overlapping;
a call whose range is empty or whose interval overlaps a stored region
returns `false` and leaves the stored list unchanged. -/
theorem c3_add_invariant (ops : List AddOp) (hok : ∀ op ∈ ops, op.start ≤ op.stop) :
    (List.Sorted regionLE (runAdds ops)
      ∧ List.Pairwise (fun a b => Region.overlaps a b = false) (runAdds ops))
    ∧ ∀ (l : List Region) (start stop : Nat) (desc : String) (perms : Nat),
        (start = stop
          ∨ ∃ r ∈ l, Region.overlaps r
              { address := start, maps_to := none, end_ := stop, desc := desc, perms := perms } = true) →
        MemoryRegions.add l start stop desc perms = (l, false) := by
  constructor
  · have key : ∀ (os : List AddOp) (l : List Region),
        List.Sorted regionLE l
        → List.Pairwise (fun a b => Region.overlaps a b = false) l
        → List.Sorted regionLE
            (os.foldl (fun l op => (MemoryRegions.add l op.start op.stop op.desc op.perms).1) l)
          ∧ List.Pairwise (fun a b => Region.overlaps a b = false)
            (os.foldl (fun l op => (MemoryRegions.add l op.start op.stop op.desc op.perms).1) l) := by
      intro os
      induction os with
      | nil => intro l hs hp; exact ⟨hs, hp⟩
      | cons op os ih =>
        intro l hs hp
        rw [List.foldl_cons]
        have step := add_preserves_inv l op.start op.stop op.desc op.perms hs hp
        exact ih _ step.1 step.2
    exact key ops [] (List.sorted_nil) (List.Pairwise.nil)
  · intro l start stop desc perms hrej
    unfold MemoryRegions.add
    by_cases h1 : start = stop
    · rw [if_pos h1]
    · rw [if_neg h1]
      rcases hrej with h | ⟨r, hr, hover⟩
      · exact absurd h h1
      · rw [if_pos (List.any_eq_true.mpr ⟨r, hr, hover⟩)]

theorem c3_add_invariant_witness :
    (∀ op ∈ ([⟨0, 10, "a", Permission.R⟩, ⟨10, 20, "b", Permission.R⟩,
        ⟨5, 15, "c", Permission.R⟩, ⟨25, 35, "d", Permission.R⟩] : List AddOp),
      op.start ≤ op.stop)
    ∧ ((List.Sorted regionLE (runAdds [⟨0, 10, "a", Permission.R⟩,
          ⟨10, 20, "b", Permission.R⟩, ⟨5, 15, "c", Permission.R⟩,
          ⟨25, 35, "d", Permission.R⟩])
        ∧ List.Pairwise (fun a b => Region.overlaps a b = false)
            (runAdds [⟨0, 10, "a", Permission.R⟩, ⟨10, 20, "b", Permission.R⟩,
              ⟨5, 15, "c", Permission.R⟩, ⟨25, 35, "d", Permission.R⟩]))
      ∧ ∀ (l : List Region) (start stop : Nat) (desc : String) (perms : Nat),
          (start = stop
            ∨ ∃ r ∈ l, Region.overlaps r
                { address := start, maps_to := none, end_ := stop, desc := desc, perms := perms } = true) →
          MemoryRegions.add l start stop desc perms = (l, false)) :=
  ⟨by decide, c3_add_invariant _ (by decide)⟩

/-- `PageLevel` (`sv48.rs` lines 895-902). -/
inductive PageLevel where
  | Level0
  | Level1
  | Level2
  | Level3
deriving DecidableEq, Repr

/-- `PAGE_SIZE` (`sv48.rs` line 215). -/
def PAGE_SIZE : Nat := 0x1000
/-- `MEGA_PAGE_SIZE` (`sv48.rs` line 217). -/
def MEGA_PAGE_SIZE : Nat := 0x200000
/-- `GIGA_PAGE_SIZE` (`sv48.rs` line 219). -/
def GIGA_PAGE_SIZE : Nat := 0x40000000
/-- `TERA_PAGE_SIZE` (`sv48.rs` line 220); note the value is `2 ^ 49` bytes
(512 TiB), not 512 GiB. -/
def TERA_PAGE_SIZE : Nat := 0x2000000000000
/-- `PETA_PAGE_SIZE` (`sv48.rs` line 221), unused by `PAGE_LEVELS`. -/
def PETA_PAGE_SIZE : Nat := 0x400000000000000

/-- `BigPage` (`sv48.rs` lines 932-939). -/
inductive BigPage where
  | Page (pos : Nat)
  | MegaPage (pos : Nat)
  | GigaPage (pos : Nat)
  | TeraPage (pos : Nat)
deriving DecidableEq, Repr

/-- `BigPage::new` (`sv48.rs` lines 960-967). -/
def BigPage.new (level : PageLevel) (address : Nat) : BigPage :=
  match level with
  | PageLevel.Level0 => BigPage.Page address
  | PageLevel.Level1 => BigPage.MegaPage address
  | PageLevel.Level2 => BigPage.GigaPage address
  | PageLevel.Level3 => BigPage.TeraPage address

/-- `BigPage::level` (`sv48.rs` lines 969-976). -/
def BigPage.level (p : BigPage) : PageLevel :=
  match p with
  | BigPage.Page _ => PageLevel.Level0
  | BigPage.MegaPage _ => PageLevel.Level1
  | BigPage.GigaPage _ => PageLevel.Level2
  | BigPage.TeraPage _ => PageLevel.Level3

/-- `BigPage::size` (`sv48.rs` lines 978-985). -/
def BigPage.size (p : BigPage) : Nat :=
  match p with
  | BigPage.Page _ => PAGE_SIZE
  | BigPage.MegaPage _ => MEGA_PAGE_SIZE
  | BigPage.GigaPage _ => GIGA_PAGE_SIZE
  | BigPage.TeraPage _ => TERA_PAGE_SIZE

/-- `BigPage::position` (`sv48.rs` lines 987-994). -/
def BigPage.position (p : BigPage) : Nat :=
  match p with
  | BigPage.Page n => n
  | BigPage.MegaPage n => n
  | BigPage.GigaPage n => n
  | BigPage.TeraPage n => n

/-- `PAGE_LEVELS` (`sv48.rs` lines 952-957). -/
def PAGE_LEVELS : List (PageLevel × Nat) :=
  [((BigPage.Page 0).level, (BigPage.Page 0).size),
   ((BigPage.MegaPage 0).level, (BigPage.MegaPage 0).size),
   ((BigPage.GigaPage 0).level, (BigPage.GigaPage 0).size),
   ((BigPage.TeraPage 0).level, (BigPage.TeraPage 0).size)]

/-- `BigPage::page_for` (`sv48.rs` lines 996-1012): scan `PAGE_LEVELS` from
the largest size down and return the first size that fits in `at_most` and to
which `position` is aligned; the `panic!` of the source when nothing matches
is modelled by `none`. -/
def BigPage.page_for (position at_most : Nat) : Option BigPage :=
  match PAGE_LEVELS.reverse.find? fun ls =>
      decide (at_most ≥ ls.2) && decide (position &&& (ls.2 - 1) = 0) with
  | some ls => some (BigPage.new ls.1 position)
  | none => none

/-- `page_end` (`hwinfo.rs` lines 282-289): round up to a page boundary. -/
def page_end (addr : Nat) : Nat :=
  if addr % PAGE_SIZE = 0 then addr else addr + (PAGE_SIZE - addr % PAGE_SIZE)

theorem BigPage.size_pos (p : BigPage) : 0 < p.size := by
  cases p <;> norm_num [BigPage.size, PAGE_SIZE, MEGA_PAGE_SIZE, GIGA_PAGE_SIZE,
    TERA_PAGE_SIZE]

/-- The loop body of `PhysicalAddressRange::big_pages` (`hwinfo.rs` lines
60-75): starting at `current`, repeatedly take `page_for current (stop -
current)` and advance by its size until `stop` is reached. -/
def bigPagesAux (stop current : Nat) : List BigPage :=
  if h : stop ≤ current then []
  else
    match BigPage.page_for current (stop - current) with
    | none => []
    | some p => p :: bigPagesAux stop (current + p.size)
termination_by stop - current
decreasing_by
  have hp := BigPage.size_pos p
  omega

/-- `PhysicalAddressRange::big_pages` on the range `[start, stop)`: the
iterator runs up to `page_end stop`. -/
def big_pages (start stop : Nat) : List BigPage :=
  bigPagesAux (page_end stop) start

/-- The tiling property: the list starts at `c`, each page is aligned to its
own size and is followed immediately by the next one, and the last page ends
exactly at `e` (an empty list requires `c = e`). -/
def tilesB : List BigPage → Nat → Nat → Bool
  | [], c, e => c == e
  | p :: rest, c, e =>
      (p.position == c) && (p.position % p.size == 0) && tilesB rest (c + p.size) e

theorem mask_mod_page (x : Nat) : x &&& (PAGE_SIZE - 1) = x % PAGE_SIZE :=
  Nat.and_pow_two_sub_one_eq_mod x 12

theorem mask_mod_mega (x : Nat) : x &&& (MEGA_PAGE_SIZE - 1) = x % MEGA_PAGE_SIZE :=
  Nat.and_pow_two_sub_one_eq_mod x 21

theorem mask_mod_giga (x : Nat) : x &&& (GIGA_PAGE_SIZE - 1) = x % GIGA_PAGE_SIZE :=
  Nat.and_pow_two_sub_one_eq_mod x 30

theorem mask_mod_tera (x : Nat) : x &&& (TERA_PAGE_SIZE - 1) = x % TERA_PAGE_SIZE :=
  Nat.and_pow_two_sub_one_eq_mod x 49

theorem page_levels_reverse :
    PAGE_LEVELS.reverse =
      [(PageLevel.Level3, TERA_PAGE_SIZE), (PageLevel.Level2, GIGA_PAGE_SIZE),
       (PageLevel.Level1, MEGA_PAGE_SIZE), (PageLevel.Level0, PAGE_SIZE)] := rfl

theorem page_for_tera (position at_most : Nat) (h1 : TERA_PAGE_SIZE ≤ at_most)
    (h2 : position % TERA_PAGE_SIZE = 0) :
    BigPage.page_for position at_most = some (BigPage.TeraPage position) := by
  unfold BigPage.page_for
  rw [page_levels_reverse,
    List.find?_cons_of_pos _ (by simp [ge_iff_le, h1, mask_mod_tera, h2])]
  rfl

theorem page_for_giga (position at_most : Nat)
    (hn : ¬(TERA_PAGE_SIZE ≤ at_most ∧ position % TERA_PAGE_SIZE = 0))
    (h1 : GIGA_PAGE_SIZE ≤ at_most) (h2 : position % GIGA_PAGE_SIZE = 0) :
    BigPage.page_for position at_most = some (BigPage.GigaPage position) := by
  unfold BigPage.page_for
  rw [page_levels_reverse,
    List.find?_cons_of_neg _ (by simp [ge_iff_le, mask_mod_tera]; tauto),
    List.find?_cons_of_pos _ (by simp [ge_iff_le, h1, mask_mod_giga, h2])]
  rfl

theorem page_for_mega (position at_most : Nat)
    (hn1 : ¬(TERA_PAGE_SIZE ≤ at_most ∧ position % TERA_PAGE_SIZE = 0))
    (hn2 : ¬(GIGA_PAGE_SIZE ≤ at_most ∧ position % GIGA_PAGE_SIZE = 0))
    (h1 : MEGA_PAGE_SIZE ≤ at_most) (h2 : position % MEGA_PAGE_SIZE = 0) :
    BigPage.page_for position at_most = some (BigPage.MegaPage position) := by
  unfold BigPage.page_for
  rw [page_levels_reverse,
    List.find?_cons_of_neg _ (by simp [ge_iff_le, mask_mod_tera]; tauto),
    List.find?_cons_of_neg _ (by simp [ge_iff_le, mask_mod_giga]; tauto),
    List.find?_cons_of_pos _ (by simp [ge_iff_le, h1, mask_mod_mega, h2])]
  rfl

theorem page_for_page (position at_most : Nat)
    (hn1 : ¬(TERA_PAGE_SIZE ≤ at_most ∧ position % TERA_PAGE_SIZE = 0))
    (hn2 : ¬(GIGA_PAGE_SIZE ≤ at_most ∧ position % GIGA_PAGE_SIZE = 0))
    (hn3 : ¬(MEGA_PAGE_SIZE ≤ at_most ∧ position % MEGA_PAGE_SIZE = 0))
    (h1 : PAGE_SIZE ≤ at_most) (h2 : position % PAGE_SIZE = 0) :
    BigPage.page_for position at_most = some (BigPage.Page position) := by
  unfold BigPage.page_for
  rw [page_levels_reverse,
    List.find?_cons_of_neg _ (by simp [ge_iff_le, mask_mod_tera]; tauto),
    List.find?_cons_of_neg _ (by simp [ge_iff_le, mask_mod_giga]; tauto),
    List.find?_cons_of_neg _ (by simp [ge_iff_le, mask_mod_mega]; tauto),
    List.find?_cons_of_pos _ (by simp [ge_iff_le, h1, mask_mod_page, h2])]
  rfl

/-- What a successful `page_for` guarantees: the returned page sits at
`position`, has one of the four supported sizes, fits the budget, is aligned,
its size is a multiple of 4 KiB, and is the largest size satisfying the
conditions. -/
theorem page_for_spec (position at_most : Nat) (hmost : PAGE_SIZE ≤ at_most)
    (hal : position % PAGE_SIZE = 0) :
    ∃ p, BigPage.page_for position at_most = some p
      ∧ p.position = position
      ∧ p.size ∈ [PAGE_SIZE, MEGA_PAGE_SIZE, GIGA_PAGE_SIZE, TERA_PAGE_SIZE]
      ∧ p.size ≤ at_most
      ∧ position % p.size = 0
      ∧ PAGE_SIZE ∣ p.size
      ∧ ∀ s ∈ [PAGE_SIZE, MEGA_PAGE_SIZE, GIGA_PAGE_SIZE, TERA_PAGE_SIZE],
          s ≤ at_most → position % s = 0 → s ≤ p.size := by
  by_cases ct : TERA_PAGE_SIZE ≤ at_most ∧ position % TERA_PAGE_SIZE = 0
  · refine ⟨BigPage.TeraPage position, page_for_tera position at_most ct.1 ct.2,
      rfl, ?_, ct.1, ct.2, ?_, ?_⟩
    · simp only [BigPage.size]
      decide
    · simp only [BigPage.size]
      decide
    · intro s hs _ _
      simp only [List.mem_cons, List.not_mem_nil, or_false, BigPage.size] at hs ⊢
      rcases hs with rfl | rfl | rfl | rfl <;> decide
  · by_cases cg : GIGA_PAGE_SIZE ≤ at_most ∧ position % GIGA_PAGE_SIZE = 0
    · refine ⟨BigPage.GigaPage position, page_for_giga position at_most ct cg.1 cg.2,
        rfl, ?_, cg.1, cg.2, ?_, ?_⟩
      · simp only [BigPage.size]
        decide
      · simp only [BigPage.size]
        decide
      · intro s hs hle hmod
        simp only [List.mem_cons, List.not_mem_nil, or_false] at hs
        simp only [BigPage.size]
        rcases hs with rfl | rfl | rfl | rfl
        · decide
        · decide
        · decide
        · exact absurd ⟨hle, hmod⟩ ct
    · by_cases cm : MEGA_PAGE_SIZE ≤ at_most ∧ position % MEGA_PAGE_SIZE = 0
      · refine ⟨BigPage.MegaPage position,
          page_for_mega position at_most ct cg cm.1 cm.2,
          rfl, ?_, cm.1, cm.2, ?_, ?_⟩
        · simp only [BigPage.size]
          decide
        · simp only [BigPage.size]
          decide
        · intro s hs hle hmod
          simp only [List.mem_cons, List.not_mem_nil, or_false] at hs
          simp only [BigPage.size]
          rcases hs with rfl | rfl | rfl | rfl
          · decide
          · decide
          · exact absurd ⟨hle, hmod⟩ cg
          · exact absurd ⟨hle, hmod⟩ ct
      · refine ⟨BigPage.Page position,
          page_for_page position at_most ct cg cm hmost hal,
          rfl, ?_, hmost, hal, ?_, ?_⟩
        · simp only [BigPage.size]
          decide
        · simp only [BigPage.size]
          decide
        · intro s hs hle hmod
          simp only [List.mem_cons, List.not_mem_nil, or_false] at hs
          simp only [BigPage.size]
          rcases hs with rfl | rfl | rfl | rfl
          · exact le_rfl
          · exact absurd ⟨hle, hmod⟩ cm
          · exact absurd ⟨hle, hmod⟩ cg
          · exact absurd ⟨hle, hmod⟩ ct

/-- C5 counterexample: with budget exactly 512 GiB (`0x8000000000`) at an
aligned position, a 512 GiB unit would satisfy both conditions of the claim,
yet the code returns the 1 GiB page, because its fourth supported size is
`TERA_PAGE_SIZE = 0x2000000000000` (512 TiB), not 512 GiB. -/
theorem c5_counterexample :
    BigPage.page_for 0 0x8000000000 = some (BigPage.GigaPage 0)
    ∧ (BigPage.GigaPage 0).size < 0x8000000000
    ∧ (0x8000000000 : Nat) ≤ 0x8000000000
    ∧ (0 : Nat) % 0x8000000000 = 0 := by
  refine ⟨by decide, by decide, by decide, by decide⟩

/-- C5 amended: `page_for(position, at_most)` returns the largest of the four
supported sizes 4 KiB, 2 MiB, 1 GiB and `TERA_PAGE_SIZE` = `0x2000000000000`
bytes (512 TiB, not 512 GiB) that does not exceed `at_most` and to which
`position` is aligned, checking largest-to-smallest; the two concrete
examples of the claim hold. -/
theorem c5_page_for (position at_most : Nat) (hmost : PAGE_SIZE ≤ at_most)
    (hal : position % PAGE_SIZE = 0) :
    (∃ p, BigPage.page_for position at_most = some p
      ∧ p.position = position
      ∧ p.size ∈ [PAGE_SIZE, MEGA_PAGE_SIZE, GIGA_PAGE_SIZE, TERA_PAGE_SIZE]
      ∧ p.size ≤ at_most
      ∧ position % p.size = 0
      ∧ ∀ s ∈ [PAGE_SIZE, MEGA_PAGE_SIZE, GIGA_PAGE_SIZE, TERA_PAGE_SIZE],
          s ≤ at_most → position % s = 0 → s ≤ p.size)
    ∧ BigPage.page_for 0x40000000 0x40000000 = some (BigPage.GigaPage 0x40000000)
    ∧ BigPage.page_for 0x1000 0x3000 = some (BigPage.Page 0x1000) := by
  refine ⟨?_, by decide, by decide⟩
  obtain ⟨p, h1, h2, h3, h4, h5, _, h7⟩ := page_for_spec position at_most hmost hal
  exact ⟨p, h1, h2, h3, h4, h5, h7⟩

theorem c5_page_for_witness :
    (PAGE_SIZE ≤ 0x3000 ∧ (0x1000 : Nat) % PAGE_SIZE = 0)
    ∧ ((∃ p, BigPage.page_for 0x1000 0x3000 = some p
        ∧ p.position = 0x1000
        ∧ p.size ∈ [PAGE_SIZE, MEGA_PAGE_SIZE, GIGA_PAGE_SIZE, TERA_PAGE_SIZE]
        ∧ p.size ≤ 0x3000
        ∧ (0x1000 : Nat) % p.size = 0
        ∧ ∀ s ∈ [PAGE_SIZE, MEGA_PAGE_SIZE, GIGA_PAGE_SIZE, TERA_PAGE_SIZE],
            s ≤ 0x3000 → (0x1000 : Nat) % s = 0 → s ≤ p.size)
      ∧ BigPage.page_for 0x40000000 0x40000000 = some (BigPage.GigaPage 0x40000000)
      ∧ BigPage.page_for 0x1000 0x3000 = some (BigPage.Page 0x1000)) :=
  ⟨⟨by decide, by decide⟩, c5_page_for 0x1000 0x3000 (by decide) (by decide)⟩

theorem bigPagesAux_tiles : ∀ (n stop current : Nat), stop - current ≤ n →
    current ≤ stop → current % PAGE_SIZE = 0 → stop % PAGE_SIZE = 0 →
    tilesB (bigPagesAux stop current) current stop = true := by
  intro n
  induction n with
  | zero =>
    intro stop current hn hcs hc hs
    have hend : stop ≤ current := by omega
    rw [bigPagesAux.eq_def, dif_pos hend]
    simp only [tilesB, beq_iff_eq]
    omega
  | succ n ih =>
    intro stop current hn hcs hc hs
    by_cases hend : stop ≤ current
    · rw [bigPagesAux.eq_def, dif_pos hend]
      simp only [tilesB, beq_iff_eq]
      omega
    · have hps : PAGE_SIZE = 4096 := rfl
      have hc4 : current % 4096 = 0 := hps ▸ hc
      have hs4 : stop % 4096 = 0 := hps ▸ hs
      have hmost : PAGE_SIZE ≤ stop - current := by
        rw [hps]
        omega
      obtain ⟨p, hp, hpos, hmem, hsz, halign, hdvd, hmax⟩ :=
        page_for_spec current (stop - current) hmost hc
      rw [bigPagesAux.eq_def, dif_neg hend, hp]
      show tilesB (p :: bigPagesAux stop (current + p.size)) current stop = true
      simp only [tilesB, hpos, halign, beq_self_eq_true, Bool.true_and]
      have hpz := BigPage.size_pos p
      have hd4 : (4096 : Nat) ∣ p.size := hdvd
      refine ih stop (current + p.size) ?_ ?_ ?_ hs
      · omega
      · omega
      · show (current + p.size) % 4096 = 0
        omega

/-- C4 counterexample: the claim quantifies over every `start ≤ end` with
only `start` 4096-aligned, but `big_pages` rounds the end up to a page
boundary: on `[0, 1)` it emits one 4 KiB page ending at 4096, not at 1, so
the output does not tile `[start, end)`. -/
theorem c4_counterexample : tilesB (big_pages 0 1) 0 1 = false := by
  have h2 : bigPagesAux 4096 4096 = [] := by
    rw [bigPagesAux.eq_def, dif_pos (le_refl 4096)]
  have hpf : BigPage.page_for 0 (4096 - 0) = some (BigPage.Page 0) := by decide
  have h1 : bigPagesAux 4096 0 = [BigPage.Page 0] := by
    rw [bigPagesAux.eq_def, dif_neg (by decide), hpf]
    show BigPage.Page 0 :: bigPagesAux 4096 (0 + (BigPage.Page 0).size) = [BigPage.Page 0]
    rw [show (0 : Nat) + (BigPage.Page 0).size = 4096 from rfl, h2]
  have hpe : page_end 1 = 4096 := by decide
  unfold big_pages
  rw [hpe, h1]
  decide

/-- C4 amended: for `start ≤ end` with BOTH endpoints 4096-aligned, the
`big_pages()` sequence tiles exactly `[start, end)`: the first page sits at
`start`, each page is aligned to its own size and followed immediately by
the next, and the last page ends exactly at `end`. -/
theorem c4_big_pages_tiling (start stop : Nat) (h1 : start ≤ stop)
    (h2 : start % PAGE_SIZE = 0) (h3 : stop % PAGE_SIZE = 0) :
    tilesB (big_pages start stop) start stop = true := by
  have hpe : page_end stop = stop := by
    unfold page_end
    rw [if_pos h3]
  unfold big_pages
  rw [hpe]
  exact bigPagesAux_tiles (stop - start) stop start le_rfl h1 h2 h3

theorem c4_big_pages_tiling_witness :
    ((0 : Nat) ≤ 0x201000 ∧ (0 : Nat) % PAGE_SIZE = 0
      ∧ (0x201000 : Nat) % PAGE_SIZE = 0)
    ∧ tilesB (big_pages 0 0x201000) 0 0x201000 = true :=
  ⟨⟨by decide, by decide, by decide⟩,
    c4_big_pages_tiling 0 0x201000 (by decide) (by decide) (by decide)⟩

/-- `VirtualAddress::vpn_0` (`sv48.rs` lines 267-269). -/
def VirtualAddress.vpn_0 (v : Nat) : Nat := (v &&& (BITS 9 <<< 12)) >>> 12

/-- `VirtualAddress::vpn_1`. -/
def VirtualAddress.vpn_1 (v : Nat) : Nat := (v &&& (BITS 9 <<< 21)) >>> 21

/-- `VirtualAddress::vpn_2`. -/
def VirtualAddress.vpn_2 (v : Nat) : Nat := (v &&& (BITS 9 <<< 30)) >>> 30

/-- `VirtualAddress::vpn_3`. -/
def VirtualAddress.vpn_3 (v : Nat) : Nat := (v &&& (BITS 9 <<< 39)) >>> 39

/-- `TableLevel::level_vpn` (`sv48.rs` lines 26-52): the 9-bit index used at
each table level. -/
def level_vpn : Nat → Nat → Nat
  | 0, v => VirtualAddress.vpn_0 v
  | 1, v => VirtualAddress.vpn_1 v
  | 2, v => VirtualAddress.vpn_2 v
  | 3, v => VirtualAddress.vpn_3 v
  | _ + 4, _ => 0

/-- The page-table tree, indexed by its level.  A `PageTable<Level0>` maps
each slot index to its raw `Entry` word; a table at level `l + 1` maps each
slot to either nothing (the entry word 0: invalid) or the flag bits of the
intermediate entry together with the exclusively owned child table.  This
models the heap structure of `sv48.rs`: a valid intermediate entry is
`Entry::new(child_pointer, flags)` where the `Box` pointer is 4096-aligned,
the only live reference to the child (spec section 3), and
`PageTableMutEntry::child`/`insert_child_table` convert between the pointer
and the child table; the pointer itself has no arithmetic content, so the
model stores the child in its place.  Slots are indexed by `Nat`; every index
used by the code is a 9-bit vpn, matching the 512-entry array. -/
def PTable : Nat → Type
  | 0 => Nat → Nat
  | l + 1 => Nat → Option (Nat × PTable l)

/-- Pointwise update of one slot. -/
def updf {α : Type} (f : Nat → α) (i : Nat) (v : α) : Nat → α :=
  fun j => if j = i then v else f j

/-- Read one `Entry` word of a level-0 table. -/
def PTable.leafEntry (t : PTable 0) (i : Nat) : Nat := t i

/-- Read one slot of a table at level `l + 1`, as `PageTableMutEntry::child`
does (`sv48.rs` lines 586-595): `none` when the entry is invalid. -/
def PTable.childEntry {l : Nat} (t : PTable (l + 1)) (i : Nat) :
    Option (Nat × PTable l) := t i

/-- `PageTable::allocate` (`sv48.rs` lines 461-468): a fresh table with every
entry zero. -/
def PTable.allocate : (l : Nat) → PTable l
  | 0 => fun _ => 0
  | _ + 1 => fun _ => none

/-- The leaf flags built by `Level0::map_addr` (`sv48.rs` lines 73-76):
`EntryFlags::builder().valid(true).with_permissions(perm).build()`. -/
def leafFlags (perm : Nat) : Nat :=
  EntryFlagsBuilder.build
    (EntryFlagsBuilder.with_permissions
      (EntryFlagsBuilder.valid EntryFlags.builder true) perm)

/-- The intermediate-entry flags built by
`PageTableMutEntry::insert_child_table` (`sv48.rs` lines 603-608):
`valid(true).readable(false).writable(false).executable(false)`. -/
def interFlags : Nat :=
  EntryFlagsBuilder.build
    (EntryFlagsBuilder.executable
      (EntryFlagsBuilder.writable
        (EntryFlagsBuilder.readable
          (EntryFlagsBuilder.valid EntryFlags.builder true) false) false) false)

/-- `map_addr`, combining `impl MapAddr for Level0` (`sv48.rs` lines 65-80)
and the hierarchical `impl<H> MapAddr for H` (`sv48.rs` lines 113-133):
at level 0 the leaf entry `Entry::new(addr, leafFlags perm)` is written into
slot `vpn_0` UNCONDITIONALLY (the source assigns `table.entries[i] = entry`
with no validity check); at level `l + 1`, recurse into the existing child
when the slot is valid, otherwise allocate a child, install it as an
intermediate entry, and recurse. -/
def map_addr : (l : Nat) → PTable l → Nat → Nat → Nat → PTable l
  | 0, es, addr, virt, perm =>
      updf es (level_vpn 0 virt) (Entry.new addr (leafFlags perm))
  | l + 1, es, addr, virt, perm =>
      match es (level_vpn (l + 1) virt) with
      | some (w, child) =>
          updf es (level_vpn (l + 1) virt)
            (some (w, map_addr l child addr virt perm))
      | none =>
          updf es (level_vpn (l + 1) virt)
            (some (interFlags, map_addr l (PTable.allocate l) addr virt perm))

/-- Looking an address up through the table hierarchy: follow the `vpn_3`,
`vpn_2`, `vpn_1` slots and read the `vpn_0` leaf entry. -/
def walkLeafEntry (t : PTable 3) (virt : Nat) : Option Nat :=
  match t.childEntry (VirtualAddress.vpn_3 virt) with
  | none => none
  | some (_, t2) =>
    match t2.childEntry (VirtualAddress.vpn_2 virt) with
    | none => none
    | some (_, t1) =>
      match t1.childEntry (VirtualAddress.vpn_1 virt) with
      | none => none
      | some (_, t0) => some (t0.leafEntry (VirtualAddress.vpn_0 virt))

theorem updf_same {α : Type} (f : Nat → α) (i : Nat) (v : α) : updf f i v i = v := by
  simp [updf]

theorem leafFlags_bits (perm : Nat) :
    leafFlags perm &&& EntryFlags.V = EntryFlags.V
    ∧ (leafFlags perm &&& EntryFlags.R != 0) = Permission.readable perm
    ∧ (leafFlags perm &&& EntryFlags.W != 0) = Permission.writable perm
    ∧ (leafFlags perm &&& EntryFlags.X != 0) = Permission.executable perm
    ∧ leafFlags perm < 2 ^ 10 := by
  unfold leafFlags
  cases hr : Permission.readable perm <;> cases hw : Permission.writable perm <;>
    cases hx : Permission.executable perm <;>
      simp only [EntryFlagsBuilder.build, EntryFlagsBuilder.with_permissions,
        EntryFlagsBuilder.valid, EntryFlagsBuilder.readable,
        EntryFlagsBuilder.writable, EntryFlagsBuilder.executable,
        EntryFlags.builder, hr, hw, hx] <;>
      exact ⟨by decide, by decide, by decide, by decide, by decide⟩

/-- C2: the claim (and the spec) say a second `map_addr` on the same virtual
address is fatal, with the already-valid leaf slot never silently
overwritten.  The code's `Level0::map_addr` assigns the slot unconditionally;
the "page already mapped" panic lives in `PageTableMutEntry::set`, which no
mapping path calls.  Evaluated at the failing input: after mapping
`virt = 0x2000` to `0x1000` with R and then to `0x3000` with RW on the same
fresh root, the walk finds the second entry — the first was silently
replaced and no failure occurred. -/
theorem c2_map_addr_overwrites :
    walkLeafEntry
        (map_addr 3 (map_addr 3 (PTable.allocate 3) 0x1000 0x2000 Permission.R)
          0x3000 0x2000 Permission.RW) 0x2000
      = some (Entry.new 0x3000 (leafFlags Permission.RW))
    ∧ walkLeafEntry (map_addr 3 (PTable.allocate 3) 0x1000 0x2000 Permission.R) 0x2000
      = some (Entry.new 0x1000 (leafFlags Permission.R))
    ∧ Entry.new 0x3000 (leafFlags Permission.RW) ≠ Entry.new 0x1000 (leafFlags Permission.R) := by
  refine ⟨by decide, by decide, by decide⟩

/-- C1 counterexample: the claim only requires `phys` to be 4096-aligned, but
`Entry::address` masks to bits 10-53 while a physical address's page-number
field reaches bit 54, so at `phys = 2 ^ 54` (aligned) the installed leaf's
`address()` is 0, not `phys`'s page-number bits. -/
theorem c1_counterexample :
    walkLeafEntry (map_addr 3 (PTable.allocate 3) 0x40000000000000 0 Permission.R) 0
      = some (Entry.new 0x40000000000000 (leafFlags Permission.R))
    ∧ Entry.address (Entry.new 0x40000000000000 (leafFlags Permission.R)) = 0
    ∧ PhysicalAddress.pageNumberBits 0x40000000000000 = 0x40000000000000
    ∧ (0x40000000000000 : Nat) % 4096 = 0
    ∧ (0 : Nat) < 2 ^ 48 := by
  refine ⟨by decide, by decide, by decide, by decide, by decide⟩

/-- C1 amended: for a fresh root and a single `map_addr(phys, virt, perm)`
with `phys` 4096-aligned AND below `2 ^ 54`, and `virt` below `2 ^ 48`:
walking the tree from the root through the `vpn_3`, `vpn_2`, `vpn_1` slots
reaches the level-0 table, every intermediate entry on the walk is valid and
non-leaf (R, W, X all clear), and the leaf entry at `vpn_0` is valid, its
`address()` equals `phys`'s page-number bits, and its R/W/X bits (the decoded
permission) equal `perm`'s. -/
theorem c1_map_addr_walk (phys virt perm : Nat) (h1 : phys % 4096 = 0)
    (h2 : phys < 2 ^ 54) (h3 : virt < 2 ^ 48) :
    ∃ (w3 : Nat) (t2 : PTable 2) (w2 : Nat) (t1 : PTable 1) (w1 : Nat) (t0 : PTable 0),
      PTable.childEntry (map_addr 3 (PTable.allocate 3) phys virt perm)
          (VirtualAddress.vpn_3 virt) = some (w3, t2)
      ∧ PTable.childEntry t2 (VirtualAddress.vpn_2 virt) = some (w2, t1)
      ∧ PTable.childEntry t1 (VirtualAddress.vpn_1 virt) = some (w1, t0)
      ∧ (∀ w ∈ [w3, w2, w1], EntryFlags.valid w = true
          ∧ w &&& (EntryFlags.R ||| EntryFlags.W ||| EntryFlags.X) = 0)
      ∧ EntryFlags.valid
          (Entry.flags (PTable.leafEntry t0 (VirtualAddress.vpn_0 virt))) = true
      ∧ Entry.address (PTable.leafEntry t0 (VirtualAddress.vpn_0 virt))
          = PhysicalAddress.pageNumberBits phys
      ∧ (PTable.leafEntry t0 (VirtualAddress.vpn_0 virt) &&& EntryFlags.R != 0)
          = Permission.readable perm
      ∧ (PTable.leafEntry t0 (VirtualAddress.vpn_0 virt) &&& EntryFlags.W != 0)
          = Permission.writable perm
      ∧ (PTable.leafEntry t0 (VirtualAddress.vpn_0 virt) &&& EntryFlags.X != 0)
          = Permission.executable perm := by
  have hbits := leafFlags_bits perm
  have hlf10 : leafFlags perm < 2 ^ 10 := hbits.2.2.2.2
  have h1' : phys % 2 ^ 12 = 0 := by
    rw [show (2 : Nat) ^ 12 = 4096 from by norm_num]
    exact h1
  have hleaf : PTable.leafEntry (map_addr 0 (PTable.allocate 0) phys virt perm)
      (VirtualAddress.vpn_0 virt) = Entry.new phys (leafFlags perm) := by
    show updf (fun _ => 0) (level_vpn 0 virt) (Entry.new phys (leafFlags perm))
        (VirtualAddress.vpn_0 virt) = Entry.new phys (leafFlags perm)
    rw [show level_vpn 0 virt = VirtualAddress.vpn_0 virt from rfl, updf_same]
  refine ⟨interFlags, map_addr 2 (PTable.allocate 2) phys virt perm, interFlags,
    map_addr 1 (PTable.allocate 1) phys virt perm, interFlags,
    map_addr 0 (PTable.allocate 0) phys virt perm, ?_, ?_, ?_, ?_, ?_, ?_, ?_, ?_, ?_⟩
  · show updf (fun _ => none) (level_vpn 3 virt)
        (some (interFlags, map_addr 2 (PTable.allocate 2) phys virt perm))
        (VirtualAddress.vpn_3 virt) = _
    rw [show level_vpn 3 virt = VirtualAddress.vpn_3 virt from rfl, updf_same]
  · show updf (fun _ => none) (level_vpn 2 virt)
        (some (interFlags, map_addr 1 (PTable.allocate 1) phys virt perm))
        (VirtualAddress.vpn_2 virt) = _
    rw [show level_vpn 2 virt = VirtualAddress.vpn_2 virt from rfl, updf_same]
  · show updf (fun _ => none) (level_vpn 1 virt)
        (some (interFlags, map_addr 0 (PTable.allocate 0) phys virt perm))
        (VirtualAddress.vpn_1 virt) = _
    rw [show level_vpn 1 virt = VirtualAddress.vpn_1 virt from rfl, updf_same]
  · intro w hw
    simp only [List.mem_cons, List.not_mem_nil, or_false] at hw
    rcases hw with rfl | rfl | rfl <;> exact ⟨by decide, by decide⟩
  · rw [hleaf]
    unfold Entry.flags Entry.new EntryFlags.valid
    rw [Nat.and_assoc, show EntryFlags.FLAGS &&& EntryFlags.V = EntryFlags.V from by decide,
      or_and_distrib, and_eq_zero_of_mod_of_lt 12 h1' (by decide), Nat.zero_or, hbits.1]
    decide
  · rw [hleaf]
    unfold Entry.address Entry.new
    have hlfppn : leafFlags perm &&& EntryFlags.PPN = 0 := by
      rw [Nat.and_comm]
      exact and_eq_zero_of_mod_of_lt 10 (by decide) hlf10
    rw [or_and_distrib, hlfppn, Nat.or_zero, and_ppn_self h1' h2,
      pageNumberBits_eq_self h1' h2]
  · rw [hleaf]
    have hR : Entry.new phys (leafFlags perm) &&& EntryFlags.R
        = leafFlags perm &&& EntryFlags.R := by
      unfold Entry.new
      rw [or_and_distrib, and_eq_zero_of_mod_of_lt 12 h1' (by decide), Nat.zero_or]
    rw [hR]
    exact hbits.2.1
  · rw [hleaf]
    have hW : Entry.new phys (leafFlags perm) &&& EntryFlags.W
        = leafFlags perm &&& EntryFlags.W := by
      unfold Entry.new
      rw [or_and_distrib, and_eq_zero_of_mod_of_lt 12 h1' (by decide), Nat.zero_or]
    rw [hW]
    exact hbits.2.2.1
  · rw [hleaf]
    have hX : Entry.new phys (leafFlags perm) &&& EntryFlags.X
        = leafFlags perm &&& EntryFlags.X := by
      unfold Entry.new
      rw [or_and_distrib, and_eq_zero_of_mod_of_lt 12 h1' (by decide), Nat.zero_or]
    rw [hX]
    exact hbits.2.2.2.1

theorem c1_map_addr_walk_witness :
    ((0x1000 : Nat) % 4096 = 0 ∧ (0x1000 : Nat) < 2 ^ 54 ∧ (0x2000 : Nat) < 2 ^ 48)
    ∧ ∃ (w3 : Nat) (t2 : PTable 2) (w2 : Nat) (t1 : PTable 1) (w1 : Nat) (t0 : PTable 0),
      PTable.childEntry (map_addr 3 (PTable.allocate 3) 0x1000 0x2000 Permission.RX)
          (VirtualAddress.vpn_3 0x2000) = some (w3, t2)
      ∧ PTable.childEntry t2 (VirtualAddress.vpn_2 0x2000) = some (w2, t1)
      ∧ PTable.childEntry t1 (VirtualAddress.vpn_1 0x2000) = some (w1, t0)
      ∧ (∀ w ∈ [w3, w2, w1], EntryFlags.valid w = true
          ∧ w &&& (EntryFlags.R ||| EntryFlags.W ||| EntryFlags.X) = 0)
      ∧ EntryFlags.valid
          (Entry.flags (PTable.leafEntry t0 (VirtualAddress.vpn_0 0x2000))) = true
      ∧ Entry.address (PTable.leafEntry t0 (VirtualAddress.vpn_0 0x2000))
          = PhysicalAddress.pageNumberBits 0x1000
      ∧ (PTable.leafEntry t0 (VirtualAddress.vpn_0 0x2000) &&& EntryFlags.R != 0)
          = Permission.readable Permission.RX
      ∧ (PTable.leafEntry t0 (VirtualAddress.vpn_0 0x2000) &&& EntryFlags.W != 0)
          = Permission.writable Permission.RX
      ∧ (PTable.leafEntry t0 (VirtualAddress.vpn_0 0x2000) &&& EntryFlags.X != 0)
          = Permission.executable Permission.RX :=
  ⟨⟨by decide, by decide, by decide⟩,
    c1_map_addr_walk 0x1000 0x2000 Permission.RX (by decide) (by decide) (by decide)⟩

end Adeline
